import Mathlib

/-!
Verification development for the biscuit-wasm binding layer.

The repository wraps the biscuit token library for a JavaScript runtime:
tokens are chains of signed blocks carrying Datalog facts, rules and
checks; an authorizer combines a token with local statements and decides
access by saturating rules, validating checks and resolving ordered
allow/deny policies.  The binding code itself (src/src/lib.rs) is a thin
layer: most of the deciding behaviour lives in the `biscuit_auth` crate,
which is modelled here from the specification (definitions carrying a
"Modelled from the spec" doc comment).  Everything that the binding layer
itself decides (buffer size checks, textual key parsing, atomic batch
parsing, list mutation, the copy-paste slip in ThirdPartyBlock
deserialization) is translated directly from the Rust source.

Machine integers are modelled as Int (i64 Datalog integers never overflow
in the operations modelled here); byte strings are lists of Nat.
-/

instance {ε α : Type} [DecidableEq ε] [DecidableEq α] : DecidableEq (Except ε α) := fun x y =>
  match x, y with
  | .ok a, .ok b => decidable_of_iff (a = b) (by simp)
  | .error e, .error f => decidable_of_iff (e = f) (by simp)
  | .ok _, .error _ => isFalse (fun h => Except.noConfusion h)
  | .error _, .ok _ => isFalse (fun h => Except.noConfusion h)

namespace BiscuitWasm

/-- Modelled from the spec: the typed Datalog term model (§3): tagged union
of booleans, integers, strings, byte arrays, dates (epoch seconds), public
keys and variables. -/
inductive Term
  | bool (b : Bool)
  | int (i : Int)
  | str (s : String)
  | bytes (bs : List Nat)
  | date (d : Int)
  | pubkey (k : List Nat)
  | tvar (v : String)
  deriving DecidableEq, Repr

/-- Modelled from the spec: a predicate pattern (name plus ordered term
list, possibly containing variables) as used in rule heads and bodies. -/
structure Pred where
  name : String
  args : List Term
  deriving DecidableEq, Repr

/-- Modelled from the spec: a fact, a predicate name plus an ordered list
of terms, asserted true. -/
structure Fact where
  name : String
  terms : List Term
  deriving DecidableEq, Repr

/-- Modelled from the spec: a value constraint appearing in a rule body
(§3): a constant boolean or an equality comparison over terms. -/
inductive Expr
  | value (b : Bool)
  | eq (a b : Term)
  deriving DecidableEq, Repr

/-- Modelled from the spec: a rule body: an ordered list of predicate
patterns plus value constraints over the bound variables. -/
structure Body where
  preds : List Pred
  exprs : List Expr
  deriving DecidableEq, Repr

/-- Modelled from the spec: a rule: a head predicate pattern plus a body;
produces new facts when the body unifies against the fact universe. -/
structure Rule where
  head : Pred
  body : Body
  deriving DecidableEq, Repr

/-- Modelled from the spec: a check: one or more rule bodies (clauses);
the check holds iff at least one clause produces at least one binding. -/
structure Check where
  clauses : List Body
  deriving DecidableEq, Repr

/-- Modelled from the spec: the policy kind, allow or deny. -/
inductive PolicyKind
  | allow
  | deny
  deriving DecidableEq, Repr

/-- Modelled from the spec: a policy: a kind plus a rule body; the first
matching policy in declaration order determines the outcome. -/
structure Policy where
  kind : PolicyKind
  body : Body
  deriving DecidableEq, Repr

/-- Modelled from the spec: the content of one token block: ordered facts,
rules and checks. -/
structure Block where
  facts : List Fact
  rules : List Rule
  checks : List Check
  deriving DecidableEq, Repr

/-- A public key, wrapping its raw bytes (32 bytes for real ed25519 keys;
the length is not enforced structurally). -/
structure PublicKey where
  bytes : List Nat
  deriving DecidableEq, Repr

/-- A private key, wrapping its raw bytes. -/
structure PrivateKey where
  bytes : List Nat
  deriving DecidableEq, Repr

/-- Modelled from the spec: key derivation from a private key; modelled as
an abstract deterministic derivation on the raw bytes. -/
def derivePublic (sk : PrivateKey) : PublicKey :=
  ⟨sk.bytes⟩

/-- Modelled from the spec: a signature, in the symbolic model: the public
key of the signer together with the exact payload it covers. -/
structure Sig where
  signer : PublicKey
  data : List Nat
  deriving DecidableEq, Repr

/-- Modelled from the spec: signing a payload with a private key. -/
def sign (sk : PrivateKey) (payload : List Nat) : Sig :=
  ⟨derivePublic sk, payload⟩

/-- Modelled from the spec: one link of the token chain: the block
content, the public key committed for the next block, and the signature
over the serialized content chained to the previous block. -/
structure SignedBlock where
  block : Block
  nextKey : PublicKey
  sig : Sig
  deriving DecidableEq, Repr

/-- Modelled from the spec: the token's terminal state: either the private
key matching the last committed public key (appendable) or a terminal seal
signature (sealed, no further appends). -/
inductive TokenProof
  | nextSecret (sk : PrivateKey)
  | sealSig (s : Sig)
  deriving DecidableEq, Repr

/-- Modelled from the spec: a Biscuit token: an authority block signed by
the root key, further attenuation blocks, and the terminal proof. -/
structure Biscuit where
  authority : SignedBlock
  blocks : List SignedBlock
  proof : TokenProof
  deriving DecidableEq, Repr

/-- Token-level errors surfaced by the binding layer. -/
inductive TokenError
  | invalidKeySize (n : Nat)
  | invalidKey
  | formatError
  | invalidSignature
  | appendOnSealed
  | alreadySealed
  deriving DecidableEq, Repr

/-- Authorization errors: failing checks (all reported), a matched deny
policy carrying its index, or no matching policy. -/
inductive AuthError
  | failedChecks (cs : List Check)
  | deniedPolicy (i : Nat)
  | noPolicyMatched
  deriving DecidableEq, Repr

/-- The Authorizer of src/src/lib.rs: an optional token plus local fact,
rule, check and policy lists. -/
structure Authorizer where
  token : Option Biscuit
  facts : List Fact
  rules : List Rule
  checks : List Check
  policies : List Policy
  deriving DecidableEq, Repr

/-- Authorizer::default(): empty state. -/
def Authorizer.default : Authorizer :=
  ⟨none, [], [], [], []⟩

/-- Modelled from the spec: a third-party request captures the issuing
token's chain-anchor state (last committed public key) so a third party
can bind a block to that exact token instance. -/
structure ThirdPartyRequest where
  previousKey : PublicKey
  deriving DecidableEq, Repr

/-- Modelled from the spec: a third-party block: block content signed by
the third party, bound to the captured chain state. -/
structure ThirdPartyBlock where
  block : Block
  externalSig : Sig
  deriving DecidableEq, Repr

/-! ### Wire format

Modelled from the spec: the binary token format is a versioned container
produced and consumed by the underlying library ("consumed/produced, not
designed here"); it is modelled as a self-delimiting flat encoding into a
list of naturals, with a total parser inverting it.  Distinct message
types (token, third-party request, third-party block) use distinct
leading tags, as distinct protobuf messages do. -/

/-- Injective packing of an Int into a Nat. -/
def intCode : Int → Nat
  | .ofNat n => 2 * n
  | .negSucc n => 2 * n + 1

/-- Inverse of `intCode`. -/
def intDecode (m : Nat) : Int :=
  if m % 2 = 0 then Int.ofNat (m / 2) else Int.negSucc (m / 2)

/-- Encode a boolean as one element. -/
def encBool (b : Bool) : List Nat :=
  [cond b 1 0]

/-- Parse a boolean. -/
def parseBool : List Nat → Option (Bool × List Nat)
  | [] => none
  | n :: rest => some (decide (n ≠ 0), rest)

/-- Flat concatenation of element encodings. -/
def encAll (f : α → List Nat) : List α → List Nat
  | [] => []
  | x :: xs => f x ++ encAll f xs

/-- Length-prefixed list encoding. -/
def encListOf (f : α → List Nat) (l : List α) : List Nat :=
  l.length :: encAll f l

/-- Parse exactly `n` elements with the element parser `p`. -/
def parseCount (p : List Nat → Option (α × List Nat)) :
    Nat → List Nat → Option (List α × List Nat)
  | 0, l => some ([], l)
  | n + 1, l =>
    match p l with
    | none => none
    | some (x, l1) =>
      match parseCount p n l1 with
      | none => none
      | some (xs, l2) => some (x :: xs, l2)

/-- Parse a length-prefixed list. -/
def parseListOf (p : List Nat → Option (α × List Nat)) :
    List Nat → Option (List α × List Nat)
  | [] => none
  | n :: rest => parseCount p n rest

/-- Encode one raw byte (model: one element). -/
def encByte (n : Nat) : List Nat :=
  [n]

/-- Parse one raw byte. -/
def parseByte : List Nat → Option (Nat × List Nat)
  | [] => none
  | n :: rest => some (n, rest)

/-- Encode a byte string. -/
def encBytes (bs : List Nat) : List Nat :=
  encListOf encByte bs

/-- Parse a byte string. -/
def parseBytes (l : List Nat) : Option (List Nat × List Nat) :=
  parseListOf parseByte l

/-- Encode a character as its code point. -/
def encChar (c : Char) : List Nat :=
  [c.toNat]

/-- Parse a character. -/
def parseChar : List Nat → Option (Char × List Nat)
  | [] => none
  | n :: rest => some (Char.ofNat n, rest)

/-- Encode a string as its length-prefixed character codes. -/
def encString (s : String) : List Nat :=
  encListOf encChar s.data

/-- Parse a string. -/
def parseString (l : List Nat) : Option (String × List Nat) :=
  match parseListOf parseChar l with
  | none => none
  | some (cs, rest) => some (String.mk cs, rest)

/-- Encode a term: tag plus payload. -/
def encTerm : Term → List Nat
  | .bool b => 0 :: encBool b
  | .int i => 1 :: [intCode i]
  | .str s => 2 :: encString s
  | .bytes bs => 3 :: encBytes bs
  | .date d => 4 :: [intCode d]
  | .pubkey k => 5 :: encBytes k
  | .tvar v => 6 :: encString v

/-- Parse a term. -/
def parseTerm : List Nat → Option (Term × List Nat)
  | [] => none
  | t :: rest =>
    match t with
    | 0 => match parseBool rest with
      | none => none
      | some (b, r) => some (.bool b, r)
    | 1 => match rest with
      | [] => none
      | m :: r => some (.int (intDecode m), r)
    | 2 => match parseString rest with
      | none => none
      | some (s, r) => some (.str s, r)
    | 3 => match parseBytes rest with
      | none => none
      | some (bs, r) => some (.bytes bs, r)
    | 4 => match rest with
      | [] => none
      | m :: r => some (.date (intDecode m), r)
    | 5 => match parseBytes rest with
      | none => none
      | some (bs, r) => some (.pubkey bs, r)
    | 6 => match parseString rest with
      | none => none
      | some (s, r) => some (.tvar s, r)
    | _ => none

/-- Encode a predicate pattern. -/
def encPred (p : Pred) : List Nat :=
  encString p.name ++ encListOf encTerm p.args

/-- Parse a predicate pattern. -/
def parsePred (l : List Nat) : Option (Pred × List Nat) :=
  match parseString l with
  | none => none
  | some (n, r1) =>
    match parseListOf parseTerm r1 with
    | none => none
    | some (ts, r2) => some (⟨n, ts⟩, r2)

/-- Encode a fact. -/
def encFact (f : Fact) : List Nat :=
  encString f.name ++ encListOf encTerm f.terms

/-- Parse a fact. -/
def parseFact (l : List Nat) : Option (Fact × List Nat) :=
  match parseString l with
  | none => none
  | some (n, r1) =>
    match parseListOf parseTerm r1 with
    | none => none
    | some (ts, r2) => some (⟨n, ts⟩, r2)

/-- Encode a constraint expression. -/
def encExpr : Expr → List Nat
  | .value b => 0 :: encBool b
  | .eq a b => 1 :: (encTerm a ++ encTerm b)

/-- Parse a constraint expression. -/
def parseExpr : List Nat → Option (Expr × List Nat)
  | [] => none
  | t :: rest =>
    match t with
    | 0 => match parseBool rest with
      | none => none
      | some (b, r) => some (.value b, r)
    | 1 => match parseTerm rest with
      | none => none
      | some (a, r1) =>
        match parseTerm r1 with
        | none => none
        | some (b, r2) => some (.eq a b, r2)
    | _ => none

/-- Encode a rule body. -/
def encBody (b : Body) : List Nat :=
  encListOf encPred b.preds ++ encListOf encExpr b.exprs

/-- Parse a rule body. -/
def parseBody (l : List Nat) : Option (Body × List Nat) :=
  match parseListOf parsePred l with
  | none => none
  | some (ps, r1) =>
    match parseListOf parseExpr r1 with
    | none => none
    | some (es, r2) => some (⟨ps, es⟩, r2)

/-- Encode a rule. -/
def encRule (r : Rule) : List Nat :=
  encPred r.head ++ encBody r.body

/-- Parse a rule. -/
def parseRule (l : List Nat) : Option (Rule × List Nat) :=
  match parsePred l with
  | none => none
  | some (h, r1) =>
    match parseBody r1 with
    | none => none
    | some (b, r2) => some (⟨h, b⟩, r2)

/-- Encode a check. -/
def encCheck (c : Check) : List Nat :=
  encListOf encBody c.clauses

/-- Parse a check. -/
def parseCheck (l : List Nat) : Option (Check × List Nat) :=
  match parseListOf parseBody l with
  | none => none
  | some (bs, rest) => some (⟨bs⟩, rest)

/-- Encode a block. -/
def encBlock (b : Block) : List Nat :=
  encListOf encFact b.facts ++ encListOf encRule b.rules ++ encListOf encCheck b.checks

/-- Parse a block. -/
def parseBlock (l : List Nat) : Option (Block × List Nat) :=
  match parseListOf parseFact l with
  | none => none
  | some (fs, r1) =>
    match parseListOf parseRule r1 with
    | none => none
    | some (rs, r2) =>
      match parseListOf parseCheck r2 with
      | none => none
      | some (cs, r3) => some (⟨fs, rs, cs⟩, r3)

/-- Encode a public key. -/
def encKey (k : PublicKey) : List Nat :=
  encBytes k.bytes

/-- Parse a public key. -/
def parseKey (l : List Nat) : Option (PublicKey × List Nat) :=
  match parseBytes l with
  | none => none
  | some (bs, rest) => some (⟨bs⟩, rest)

/-- Encode a signature. -/
def encSig (s : Sig) : List Nat :=
  encKey s.signer ++ encBytes s.data

/-- Parse a signature. -/
def parseSig (l : List Nat) : Option (Sig × List Nat) :=
  match parseKey l with
  | none => none
  | some (k, r1) =>
    match parseBytes r1 with
    | none => none
    | some (d, r2) => some (⟨k, d⟩, r2)

/-- Encode a signed block. -/
def encSignedBlock (sb : SignedBlock) : List Nat :=
  encBlock sb.block ++ encKey sb.nextKey ++ encSig sb.sig

/-- Parse a signed block. -/
def parseSignedBlock (l : List Nat) : Option (SignedBlock × List Nat) :=
  match parseBlock l with
  | none => none
  | some (b, r1) =>
    match parseKey r1 with
    | none => none
    | some (k, r2) =>
      match parseSig r2 with
      | none => none
      | some (s, r3) => some (⟨b, k, s⟩, r3)

/-- Encode the terminal proof. -/
def encProof : TokenProof → List Nat
  | .nextSecret sk => 0 :: encBytes sk.bytes
  | .sealSig s => 1 :: encSig s

/-- Parse the terminal proof. -/
def parseProof : List Nat → Option (TokenProof × List Nat)
  | [] => none
  | t :: rest =>
    match t with
    | 0 => match parseBytes rest with
      | none => none
      | some (bs, r) => some (.nextSecret ⟨bs⟩, r)
    | 1 => match parseSig rest with
      | none => none
      | some (s, r) => some (.sealSig s, r)
    | _ => none

/-- Encode a whole token; leading tag 2 distinguishes the token container
from third-party request (tag 0) and third-party block (tag 1) messages. -/
def encBiscuit (t : Biscuit) : List Nat :=
  2 :: (encSignedBlock t.authority ++ encListOf encSignedBlock t.blocks ++ encProof t.proof)

/-- Parse a whole token. -/
def parseBiscuit : List Nat → Option (Biscuit × List Nat)
  | [] => none
  | t :: rest =>
    match t with
    | 2 =>
      match parseSignedBlock rest with
      | none => none
      | some (a, r1) =>
        match parseListOf parseSignedBlock r1 with
        | none => none
        | some (bs, r2) =>
          match parseProof r2 with
          | none => none
          | some (p, r3) => some (⟨a, bs, p⟩, r3)
    | _ => none

/-- Encode a third-party request (leading tag 0). -/
def encThirdPartyRequest (r : ThirdPartyRequest) : List Nat :=
  0 :: encKey r.previousKey

/-- Parse a third-party request; rejects any other message tag. -/
def parseThirdPartyRequest : List Nat → Option (ThirdPartyRequest × List Nat)
  | [] => none
  | t :: rest =>
    match t with
    | 0 =>
      match parseKey rest with
      | none => none
      | some (k, r) => some (⟨k⟩, r)
    | _ => none

/-- Encode a third-party block (leading tag 1). -/
def encThirdPartyBlock (b : ThirdPartyBlock) : List Nat :=
  1 :: (encBlock b.block ++ encSig b.externalSig)

/-- Parse a third-party block; rejects any other message tag. -/
def parseThirdPartyBlock : List Nat → Option (ThirdPartyBlock × List Nat)
  | [] => none
  | t :: rest =>
    match t with
    | 1 =>
      match parseBlock rest with
      | none => none
      | some (b, r1) =>
        match parseSig r1 with
        | none => none
        | some (s, r2) => some (⟨b, s⟩, r2)
    | _ => none

/-! ### Base64 model

Modelled from the spec: URL-safe base64 text ("uses the URL-safe alphabet
without padding assumptions beyond standard decode"); modelled as an
injective byte-string-to-text encoding with a total decoder. -/

/-- One encoded byte: a unary run terminated by a marker character. -/
def b64Chunk (n : Nat) : List Char :=
  List.replicate n 'a' ++ ['b']

/-- Character stream of a byte string. -/
def b64Chars : List Nat → List Char
  | [] => []
  | n :: ns => b64Chunk n ++ b64Chars ns

/-- Base64 text of a byte string. -/
def b64String (bs : List Nat) : String :=
  String.mk (b64Chars bs)

/-- Base64 decoding loop, carrying the current run length. -/
def b64DecodeAux : List Char → Nat → Option (List Nat)
  | [], 0 => some []
  | [], _ + 1 => none
  | c :: cs, acc =>
    if c = 'a' then b64DecodeAux cs (acc + 1)
    else if c = 'b' then
      match b64DecodeAux cs 0 with
      | none => none
      | some ns => some (acc :: ns)
    else none

/-- Base64 decoding of a text. -/
def b64Decode (s : String) : Option (List Nat) :=
  b64DecodeAux s.data 0

/-! ### Token chain -/

/-- Modelled from the spec: payload covered by the authority block's
signature: the serialized content plus the committed next public key. -/
def authorityPayload (b : Block) (nk : PublicKey) : List Nat :=
  encBlock b ++ encKey nk

/-- Modelled from the spec: payload covered by an attenuation block's
signature: the previous block's signature, the serialized content and the
committed next public key ("chained to the previous block"). -/
def blockPayload (prev : Sig) (b : Block) (nk : PublicKey) : List Nat :=
  encSig prev ++ encBlock b ++ encKey nk

/-- Modelled from the spec: payload covered by the terminal seal. -/
def sealPayload (last : Sig) : List Nat :=
  3 :: encSig last

/-- The last signature of the chain (authority's if no block follows). -/
def lastSig (t : Biscuit) : Sig :=
  match t.blocks.getLast? with
  | some sb => sb.sig
  | none => t.authority.sig

/-- Modelled from the spec: iterative chain walk carrying the expected
signing key and the previous signature; yields the final committed key
and the final signature when every link verifies. -/
def walkChain (expected : PublicKey) (prev : Sig) : List SignedBlock → Option (PublicKey × Sig)
  | [] => some (expected, prev)
  | sb :: rest =>
    if sb.sig = ⟨expected, blockPayload prev sb.block sb.nextKey⟩ then
      walkChain sb.nextKey sb.sig rest
    else none

/-- Modelled from the spec: the terminal proof matches the chain's final
state: an appendable secret must match the last committed key, a seal
must sign the full chain under that key. -/
def proofOk (pf : TokenProof) (k : PublicKey) (s : Sig) : Bool :=
  match pf with
  | .nextSecret sk => decide (derivePublic sk = k)
  | .sealSig sg => decide (sg = ⟨k, sealPayload s⟩)

/-- Modelled from the spec: full chain verification against the root
public key, ending at an appendable key or a seal. -/
def verifyToken (root : PublicKey) (t : Biscuit) : Bool :=
  decide (t.authority.sig = ⟨root, authorityPayload t.authority.block t.authority.nextKey⟩) &&
    match walkChain t.authority.nextKey t.authority.sig t.blocks with
    | none => false
    | some (lastKey, lSig) => proofOk t.proof lastKey lSig

/-- Modelled from the spec: BiscuitBuilder::build: creates block 0 signed
by the root private key, committing a fresh ephemeral key. -/
def buildToken (root : PrivateKey) (b : Block) (eph : PrivateKey) : Biscuit :=
  let nk := derivePublic eph
  { authority := ⟨b, nk, sign root (authorityPayload b nk)⟩
    blocks := []
    proof := .nextSecret eph }

/-- Biscuit::appendBlock: signs a new block with the key matching the last
committed public key, committing a fresh ephemeral key; fails on a sealed
token.  The fresh keypair drawn from the RNG in the source is threaded as
the explicit `eph` argument. -/
def Biscuit.append (t : Biscuit) (b : Block) (eph : PrivateKey) : Except TokenError Biscuit :=
  match t.proof with
  | .sealSig _ => .error .appendOnSealed
  | .nextSecret sk =>
    let nk := derivePublic eph
    let sb : SignedBlock := ⟨b, nk, sign sk (blockPayload (lastSig t) b nk)⟩
    .ok { authority := t.authority, blocks := t.blocks ++ [sb], proof := .nextSecret eph }

/-- The effect of calling appendBlock on the receiver: the method takes
the token by shared reference, so the call returns its result and leaves
the receiver as it was. -/
def Biscuit.appendRun (t : Biscuit) (b : Block) (eph : PrivateKey) :
    Except TokenError Biscuit × Biscuit :=
  (t.append b eph, t)

/-- Biscuit::sealToken: appends a terminal signature; fails if already
sealed. -/
def Biscuit.seal (t : Biscuit) : Except TokenError Biscuit :=
  match t.proof with
  | .sealSig _ => .error .alreadySealed
  | .nextSecret sk => .ok { t with proof := .sealSig (sign sk (sealPayload (lastSig t))) }

/-- Biscuit::toBytes: canonical serialization. -/
def Biscuit.to_bytes (t : Biscuit) : List Nat :=
  encBiscuit t

/-- Biscuit::fromBytes: deserializes and verifies every link of the chain
against the supplied root public key; rejects malformed bytes and invalid
signatures. -/
def Biscuit.from_bytes (data : List Nat) (root : PublicKey) : Except TokenError Biscuit :=
  match parseBiscuit data with
  | some (t, []) => if verifyToken root t then .ok t else .error .invalidSignature
  | _ => .error .formatError

/-- Biscuit::toBase64. -/
def Biscuit.to_base64 (t : Biscuit) : String :=
  b64String (encBiscuit t)

/-- Biscuit::fromBase64. -/
def Biscuit.from_base64 (s : String) (root : PublicKey) : Except TokenError Biscuit :=
  match b64Decode s with
  | none => .error .formatError
  | some data => Biscuit.from_bytes data root

/-- Biscuit::countBlocks: authority block plus attenuation blocks. -/
def Biscuit.block_count (t : Biscuit) : Nat :=
  1 + t.blocks.length

/-- The token's block signatures, in block order. -/
def chainSigs (t : Biscuit) : List Sig :=
  t.authority.sig :: t.blocks.map (·.sig)

/-- Modelled from the spec: the revocation identifier of one block,
derived deterministically from its signature; the binding layer returns
it URL-safe base64 encoded. -/
def revocationId (s : Sig) : String :=
  b64String (encSig s)

/-- Biscuit::getRevocationIdentifiers: one identifier per block, in block
order. -/
def Biscuit.revocation_identifiers (t : Biscuit) : List String :=
  (chainSigs t).map revocationId

/-- Decoder of a revocation identifier back to the signature it encodes
(witnesses that `revocationId` is injective). -/
def decodeRevId (s : String) : Option Sig :=
  match b64Decode s with
  | none => none
  | some l =>
    match parseSig l with
    | some (sg, []) => some sg
    | _ => none

/-- Modelled from the spec: rendering a block's content as logic-language
source; modelled as a deterministic injective rendering of the content. -/
def renderBlock (b : Block) : String :=
  b64String (encBlock b)

/-- Biscuit::getBlockSource: renders one block, failing out of range. -/
def Biscuit.block_source (t : Biscuit) (i : Nat) : Except TokenError String :=
  match (t.authority.block :: t.blocks.map (·.block))[i]? with
  | some b => .ok (renderBlock b)
  | none => .error .formatError

/-! ### Third-party block serialization (as written in src/src/lib.rs) -/

/-- ThirdPartyBlock::toBytes. -/
def ThirdPartyBlock.to_bytes (b : ThirdPartyBlock) : List Nat :=
  encThirdPartyBlock b

/-- ThirdPartyBlock::toBase64. -/
def ThirdPartyBlock.to_base64 (b : ThirdPartyBlock) : String :=
  b64String (encThirdPartyBlock b)

/-- ThirdPartyBlock::fromBytes as written in the source: it delegates to
ThirdPartyRequest::deserialize and returns a ThirdPartyRequest, not a
ThirdPartyBlock. -/
def ThirdPartyBlock.from_bytes (data : List Nat) : Except TokenError ThirdPartyRequest :=
  match parseThirdPartyRequest data with
  | some (r, []) => .ok r
  | _ => .error .formatError

/-- ThirdPartyBlock::fromBase64 as written in the source: it delegates to
ThirdPartyRequest::deserialize_base64 and returns a ThirdPartyRequest. -/
def ThirdPartyBlock.from_base64 (s : String) : Except TokenError ThirdPartyRequest :=
  match b64Decode s with
  | none => .error .formatError
  | some data => ThirdPartyBlock.from_bytes data

/-! ### Key serialization -/

/-- slice::copy_from_slice semantics for equal-length slices. -/
def copyFromSlice (dst src : List Nat) : List Nat :=
  if src.length = dst.length then src else dst

/-- PublicKey::toBytes into a caller-supplied buffer: rejects any buffer
whose length is not 32 with an invalid-key-size error carrying the
length, leaving the buffer untouched; otherwise copies the raw key bytes
into the buffer. -/
def PublicKey.to_bytes (k : PublicKey) (out : List Nat) : Except TokenError Unit × List Nat :=
  if out.length ≠ 32 then (.error (.invalidKeySize out.length), out)
  else (.ok (), copyFromSlice out k.bytes)

/-- PrivateKey::toBytes into a caller-supplied buffer, same contract as
for public keys. -/
def PrivateKey.to_bytes (k : PrivateKey) (out : List Nat) : Except TokenError Unit × List Nat :=
  if out.length ≠ 32 then (.error (.invalidKeySize out.length), out)
  else (.ok (), copyFromSlice out k.bytes)

/-- Value of one lowercase hexadecimal digit. -/
def hexDigit (c : Char) : Option Nat :=
  if 48 ≤ c.toNat ∧ c.toNat ≤ 57 then some (c.toNat - 48)
  else if 97 ≤ c.toNat ∧ c.toNat ≤ 102 then some (c.toNat - 87)
  else none

/-- Hex decoding: pairs of digits to bytes. -/
def hexDecodeChars : List Char → Option (List Nat)
  | [] => some []
  | [_] => none
  | c1 :: c2 :: cs =>
    match hexDigit c1, hexDigit c2, hexDecodeChars cs with
    | some hi, some lo, some rest => some ((16 * hi + lo) :: rest)
    | _, _, _ => none

/-- Modelled from the spec: PublicKey::from_bytes_hex of the underlying
library: decodes lowercase hex and requires exactly 32 bytes. -/
def pkFromBytesHex (s : String) : Option PublicKey :=
  match hexDecodeChars s.data with
  | none => none
  | some bs => if bs.length = 32 then some ⟨bs⟩ else none

/-- Errors of the textual public-key deserializer. -/
inductive KeyVisitError
  | formatError
  | parseError
  deriving DecidableEq, Repr

/-- str::strip_prefix on character lists. -/
def stripPfxChars : List Char → List Char → Option (List Char)
  | [], l => some l
  | _ :: _, [] => none
  | p :: ps, c :: cs => if p = c then stripPfxChars ps cs else none

/-- PublicKeyVisitor::visit_string: strips the "ed25519/" marker, failing
with a format error when it is absent, then decodes the hex tail, failing
with a parse error when it is malformed. -/
def pkVisitString (s : String) : Except KeyVisitError PublicKey :=
  match stripPfxChars "ed25519/".data s.data with
  | none => .error .formatError
  | some rest =>
    match pkFromBytesHex (String.mk rest) with
    | none => .error .parseError
    | some k => .ok k

/-! ### Datalog evaluation

Modelled from the spec (§4.4): one authorize() pass assembles the fact,
rule and check universe from the token's blocks and the authorizer's
local lists, saturates the rules to a fixpoint, validates every check,
and resolves the authorizer's policies in declaration order. -/

/-- A substitution: variable bindings accumulated during unification. -/
abbrev Sub := List (String × Term)

/-- Apply a substitution to a term. -/
def applySub (sub : Sub) : Term → Term
  | .tvar v =>
    match List.lookup v sub with
    | some t => t
    | none => .tvar v
  | t => t

/-- Instantiate a rule head under a substitution. -/
def instantiate (p : Pred) (sub : Sub) : Fact :=
  ⟨p.name, p.args.map (applySub sub)⟩

/-- Unify one pattern term against one fact term, extending the
substitution. -/
def matchTerm (sub : Sub) (pat val : Term) : Option Sub :=
  match pat with
  | .tvar v =>
    match List.lookup v sub with
    | some t => if t = val then some sub else none
    | none => some ((v, val) :: sub)
  | _ => if pat = val then some sub else none

/-- Unify argument lists position by position. -/
def matchTerms (sub : Sub) : List Term → List Term → Option Sub
  | [], [] => some sub
  | p :: ps, v :: vs =>
    match matchTerm sub p v with
    | none => none
    | some s => matchTerms s ps vs
  | _, _ => none

/-- Unify a predicate pattern against a fact. -/
def matchPred (sub : Sub) (p : Pred) (f : Fact) : Option Sub :=
  if p.name = f.name then matchTerms sub p.args f.terms else none

/-- Evaluate a value constraint under a substitution. -/
def evalExpr (sub : Sub) : Expr → Bool
  | .value b => b
  | .eq a b => decide (applySub sub a = applySub sub b)

/-- All variable bindings under which the body's patterns unify against
the fact set and its constraints hold. -/
def bodyBindings (body : Body) (facts : List Fact) : List Sub :=
  (body.preds.foldl
    (fun subs p => subs.flatMap (fun sub => facts.filterMap (fun f => matchPred sub p f)))
    [([] : Sub)]).filter
    (fun sub => body.exprs.all (evalExpr sub))

/-- Whether a body has at least one binding. -/
def bodyMatches (body : Body) (facts : List Fact) : Bool :=
  !(bodyBindings body facts).isEmpty

/-- A check holds iff at least one of its clauses has a binding. -/
def checkHolds (facts : List Fact) (c : Check) : Bool :=
  c.clauses.any (fun b => bodyMatches b facts)

/-- One round of rule application: every head instance produced by some
binding of some rule's body. -/
def stepRules (rules : List Rule) (facts : List Fact) : List Fact :=
  rules.flatMap (fun r => (bodyBindings r.body facts).map (instantiate r.head))

/-- Saturation loop: add newly derived facts until a round derives
nothing new or the fuel runs out. -/
def saturateAux : Nat → List Rule → List Fact → List Fact
  | 0, _, facts => facts
  | n + 1, rules, facts =>
    let fresh := (stepRules rules facts).filter (fun f => decide (f ∉ facts))
    if fresh.isEmpty then facts else saturateAux n rules (facts ++ fresh)

/-- Non-variable terms occurring in the program, an overapproximation of
the constants derivable facts can mention. -/
def atomConsts (facts : List Fact) (rules : List Rule) : List Term :=
  (facts.flatMap (·.terms) ++
    rules.flatMap (fun r => r.head.args ++ r.body.preds.flatMap (·.args))).filter
    (fun t => match t with | .tvar _ => false | _ => true)

/-- Fuel bound for saturation: every round either adds a fact drawn from
the finitely many possible head instances or stops. -/
def saturationFuel (rules : List Rule) (facts : List Fact) : Nat :=
  let c := (atomConsts facts rules).length + 1
  facts.length + rules.foldl (fun n r => n + c ^ r.head.args.length) 0 + 1

/-- Saturation to a fixpoint. -/
def saturate (rules : List Rule) (facts : List Fact) : List Fact :=
  saturateAux (saturationFuel rules facts) rules facts

/-! ### Authorizer operations (src/src/lib.rs) -/

/-- The content of the token's blocks, authority first. -/
def Authorizer.tokenBlocks (a : Authorizer) : List Block :=
  match a.token with
  | some t => t.authority.block :: t.blocks.map (·.block)
  | none => []

/-- Step 1 of authorize(): the assembled fact universe (token blocks'
facts, then locally added facts). -/
def Authorizer.assembledFacts (a : Authorizer) : List Fact :=
  a.tokenBlocks.flatMap (·.facts) ++ a.facts

/-- The assembled rule set. -/
def Authorizer.assembledRules (a : Authorizer) : List Rule :=
  a.tokenBlocks.flatMap (·.rules) ++ a.rules

/-- The assembled check list (every block's checks, then the
authorizer's). -/
def Authorizer.assembledChecks (a : Authorizer) : List Check :=
  a.tokenBlocks.flatMap (·.checks) ++ a.checks

/-- Step 2 of authorize(): the saturated fact set. -/
def Authorizer.satFacts (a : Authorizer) : List Fact :=
  saturate a.assembledRules a.assembledFacts

/-- Step 3 of authorize(): every failing check (all reported, not just
the first). -/
def Authorizer.failingChecks (a : Authorizer) : List Check :=
  a.assembledChecks.filter (fun c => !checkHolds a.satFacts c)

/-- Step 4 of authorize(): walk the policies in declaration order; the
first one whose body has a binding decides. -/
def evalPolicies (facts : List Fact) : List Policy → Nat → Except AuthError Nat
  | [], _ => .error .noPolicyMatched
  | p :: ps, i =>
    if bodyMatches p.body facts then
      match p.kind with
      | .allow => .ok i
      | .deny => .error (.deniedPolicy i)
    else evalPolicies facts ps (i + 1)

/-- Authorizer::authorize: checks first, then ordered policy
resolution. -/
def Authorizer.authorize (a : Authorizer) : Except AuthError Nat :=
  if a.failingChecks.isEmpty then evalPolicies a.satFacts a.policies 0
  else .error (.failedChecks a.failingChecks)

/-- The effect of calling authorize() on the receiver: the method takes
the authorizer by shared reference and builds its evaluation state in a
local value, so the call returns its result and leaves the receiver as it
was. -/
def Authorizer.authorizeRun (a : Authorizer) : Except AuthError Nat × Authorizer :=
  (a.authorize, a)

/-- Authorizer::addFact: push onto the local fact list, always Ok. -/
def Authorizer.add_fact (a : Authorizer) (f : Fact) : Except TokenError Unit × Authorizer :=
  (.ok (), { a with facts := a.facts ++ [f] })

/-- Authorizer::addRule: push onto the local rule list, always Ok. -/
def Authorizer.add_rule (a : Authorizer) (r : Rule) : Except TokenError Unit × Authorizer :=
  (.ok (), { a with rules := a.rules ++ [r] })

/-- Authorizer::addCheck: push onto the local check list, always Ok. -/
def Authorizer.add_check (a : Authorizer) (c : Check) : Except TokenError Unit × Authorizer :=
  (.ok (), { a with checks := a.checks ++ [c] })

/-- Authorizer::addPolicy: push onto the local policy list, always Ok. -/
def Authorizer.add_policy (a : Authorizer) (p : Policy) : Except TokenError Unit × Authorizer :=
  (.ok (), { a with policies := a.policies ++ [p] })

/-- Modelled from the spec: one statement of logic-language source text
as the external parser classifies it: a fact, rule, check or policy
statement, or a malformed statement the parser rejects. -/
inductive RawStatement
  | factStmt (f : Fact)
  | ruleStmt (r : Rule)
  | checkStmt (c : Check)
  | policyStmt (p : Policy)
  | malformed (s : String)
  deriving DecidableEq, Repr

/-- The split parse result of a source batch. -/
structure SourceResult where
  facts : List Fact
  rules : List Rule
  checks : List Check
  policies : List Policy
  deriving DecidableEq, Repr

/-- Modelled from the spec: parse_source splits a batch into facts,
rules, checks and policies, failing when any statement fails to parse. -/
def parseSource : List RawStatement → Option SourceResult
  | [] => some ⟨[], [], [], []⟩
  | st :: rest =>
    match parseSource rest with
    | none => none
    | some res =>
      match st with
      | .factStmt f => some { res with facts := f :: res.facts }
      | .ruleStmt r => some { res with rules := r :: res.rules }
      | .checkStmt c => some { res with checks := c :: res.checks }
      | .policyStmt p => some { res with policies := p :: res.policies }
      | .malformed _ => none

/-- Authorizer::addCode: parse the whole batch first; only on success
append each parsed statement to the corresponding list. -/
def Authorizer.add_code (a : Authorizer) (src : List RawStatement) :
    Except TokenError Unit × Authorizer :=
  match parseSource src with
  | none => (.error .formatError, a)
  | some res =>
    (.ok (),
      { a with
        facts := a.facts ++ res.facts
        rules := a.rules ++ res.rules
        checks := a.checks ++ res.checks
        policies := a.policies ++ res.policies })

/-- The spec's wording of policy resolution, stated independently of the
evaluation loop: the first indexed policy whose body has at least one
binding determines the outcome; with no match, a "no policy matched"
error. -/
def policyDecisionSpec (facts : List Fact) (policies : List Policy) : Except AuthError Nat :=
  match policies.enum.find? (fun ip => bodyMatches ip.2.body facts) with
  | some (i, p) =>
    match p.kind with
    | .allow => .ok i
    | .deny => .error (.deniedPolicy i)
  | none => .error .noPolicyMatched

/-! ### Concrete values used to instantiate the theorems -/

/-- A block with no content. -/
def emptyBlock : Block :=
  ⟨[], [], []⟩

/-- A concrete root private key. -/
def exRoot : PrivateKey :=
  ⟨[1]⟩

/-- The matching root public key. -/
def exRootPub : PublicKey :=
  derivePublic exRoot

/-- A concrete ephemeral key for the authority block. -/
def exEph1 : PrivateKey :=
  ⟨[2]⟩

/-- A concrete ephemeral key for an appended block. -/
def exEph2 : PrivateKey :=
  ⟨[3]⟩

/-- A concrete one-block token. -/
def exToken1 : Biscuit :=
  buildToken exRoot emptyBlock exEph1

/-- A concrete two-block token. -/
def exToken2 : Biscuit :=
  match exToken1.append emptyBlock exEph2 with
  | .ok t => t
  | .error _ => exToken1

/-- A concrete sealed token. -/
def exSealed : Biscuit :=
  match exToken1.seal with
  | .ok t => t
  | .error _ => exToken1

/-- A concrete third-party block. -/
def exTPB : ThirdPartyBlock :=
  ⟨emptyBlock, ⟨⟨[9]⟩, [7]⟩⟩

/-- A deny policy whose body requires a flag("x") fact. -/
def denyFlagX : Policy :=
  ⟨.deny, ⟨[⟨"flag", [.str "x"]⟩], []⟩⟩

/-- An allow policy with the trivially true body. -/
def allowTrue : Policy :=
  ⟨.allow, ⟨[], [.value true]⟩⟩

/-- The authorizer of the claim's policy example: policies
[deny if flag("x"), allow if true], no facts. -/
def exC2Auth : Authorizer :=
  ⟨none, [], [], [], [denyFlagX, allowTrue]⟩

/-- An authorizer with one local fact, used to observe atomicity. -/
def exC6Auth : Authorizer :=
  ⟨none, [⟨"user", [.str "alice"]⟩], [], [], []⟩

/-- A source batch whose second statement is malformed. -/
def exBadSrc : List RawStatement :=
  [.factStmt ⟨"right", [.str "read"]⟩, .malformed "né pas datalog"]

/-- A concrete 32-byte public key. -/
def exPub32 : PublicKey :=
  ⟨List.replicate 32 7⟩

/-- A concrete 32-byte private key. -/
def exPriv32 : PrivateKey :=
  ⟨List.replicate 32 5⟩

/-- The textual form of the all-zero public key. -/
def exKeyText : String :=
  String.mk ("ed25519/".data ++ List.replicate 64 '0')

/-- A textual key with the right marker but malformed hex. -/
def exBadHexText : String :=
  String.mk ("ed25519/".data ++ ['z'])

/-! ### Parser inversion lemmas -/

theorem intDecode_intCode (i : Int) : intDecode (intCode i) = i := by
  cases i with
  | ofNat n => simp [intCode, intDecode, Nat.mul_mod_right]
  | negSucc n =>
    have h1 : (2 * n + 1) % 2 = 1 := by omega
    have h2 : (2 * n + 1) / 2 = n := by omega
    simp [intCode, intDecode, h1, h2]

theorem parseBool_enc (b : Bool) (rest : List Nat) :
    parseBool (encBool b ++ rest) = some (b, rest) := by
  cases b <;> simp [encBool, parseBool]

theorem parseByte_enc (n : Nat) (rest : List Nat) :
    parseByte (encByte n ++ rest) = some (n, rest) := by
  simp [encByte, parseByte]

theorem parseChar_enc (c : Char) (rest : List Nat) :
    parseChar (encChar c ++ rest) = some (c, rest) := by
  simp [encChar, parseChar, Char.ofNat_toNat]

theorem parseCount_enc {α : Type} (p : List Nat → Option (α × List Nat)) (f : α → List Nat)
    (xs : List α) (rest : List Nat)
    (hp : ∀ x ∈ xs, ∀ r, p (f x ++ r) = some (x, r)) :
    parseCount p xs.length (encAll f xs ++ rest) = some (xs, rest) := by
  induction xs with
  | nil => simp [encAll, parseCount]
  | cons x xs ih =>
    have h1 := hp x (by simp) (encAll f xs ++ rest)
    have h2 := ih (fun y hy r => hp y (by simp [hy]) r)
    simp [encAll, parseCount, List.append_assoc, h1, h2]

theorem parseListOf_enc {α : Type} (p : List Nat → Option (α × List Nat)) (f : α → List Nat)
    (xs : List α) (rest : List Nat)
    (hp : ∀ x ∈ xs, ∀ r, p (f x ++ r) = some (x, r)) :
    parseListOf p (encListOf f xs ++ rest) = some (xs, rest) := by
  simp [encListOf, parseListOf, parseCount_enc p f xs rest hp]

theorem parseBytes_enc (bs : List Nat) (rest : List Nat) :
    parseBytes (encBytes bs ++ rest) = some (bs, rest) := by
  simp [encBytes, parseBytes, parseListOf_enc parseByte encByte bs rest (fun x _ r => parseByte_enc x r)]

theorem parseString_enc (s : String) (rest : List Nat) :
    parseString (encString s ++ rest) = some (s, rest) := by
  simp [encString, parseString,
    parseListOf_enc parseChar encChar s.data rest (fun x _ r => parseChar_enc x r)]

theorem parseTerm_enc (t : Term) (rest : List Nat) :
    parseTerm (encTerm t ++ rest) = some (t, rest) := by
  cases t <;>
    simp [encTerm, parseTerm, parseBool_enc, parseString_enc, parseBytes_enc, intDecode_intCode]

theorem parseTermList_enc (ts : List Term) (rest : List Nat) :
    parseListOf parseTerm (encListOf encTerm ts ++ rest) = some (ts, rest) :=
  parseListOf_enc parseTerm encTerm ts rest (fun x _ r => parseTerm_enc x r)

theorem parsePred_enc (p : Pred) (rest : List Nat) :
    parsePred (encPred p ++ rest) = some (p, rest) := by
  simp [encPred, parsePred, List.append_assoc, parseString_enc, parseTermList_enc]

theorem parseFact_enc (f : Fact) (rest : List Nat) :
    parseFact (encFact f ++ rest) = some (f, rest) := by
  simp [encFact, parseFact, List.append_assoc, parseString_enc, parseTermList_enc]

theorem parseExpr_enc (e : Expr) (rest : List Nat) :
    parseExpr (encExpr e ++ rest) = some (e, rest) := by
  cases e <;> simp [encExpr, parseExpr, List.append_assoc, parseBool_enc, parseTerm_enc]

theorem parseBody_enc (b : Body) (rest : List Nat) :
    parseBody (encBody b ++ rest) = some (b, rest) := by
  simp [encBody, parseBody, List.append_assoc,
    parseListOf_enc parsePred encPred b.preds _ (fun x _ r => parsePred_enc x r),
    parseListOf_enc parseExpr encExpr b.exprs rest (fun x _ r => parseExpr_enc x r)]

theorem parseRule_enc (r : Rule) (rest : List Nat) :
    parseRule (encRule r ++ rest) = some (r, rest) := by
  simp [encRule, parseRule, List.append_assoc, parsePred_enc, parseBody_enc]

theorem parseCheck_enc (c : Check) (rest : List Nat) :
    parseCheck (encCheck c ++ rest) = some (c, rest) := by
  simp [encCheck, parseCheck,
    parseListOf_enc parseBody encBody c.clauses rest (fun x _ r => parseBody_enc x r)]

theorem parseBlock_enc (b : Block) (rest : List Nat) :
    parseBlock (encBlock b ++ rest) = some (b, rest) := by
  simp [encBlock, parseBlock, List.append_assoc,
    parseListOf_enc parseFact encFact b.facts _ (fun x _ r => parseFact_enc x r),
    parseListOf_enc parseRule encRule b.rules _ (fun x _ r => parseRule_enc x r),
    parseListOf_enc parseCheck encCheck b.checks rest (fun x _ r => parseCheck_enc x r)]

theorem parseKey_enc (k : PublicKey) (rest : List Nat) :
    parseKey (encKey k ++ rest) = some (k, rest) := by
  simp [encKey, parseKey, parseBytes_enc]

theorem parseSig_enc (s : Sig) (rest : List Nat) :
    parseSig (encSig s ++ rest) = some (s, rest) := by
  simp [encSig, parseSig, List.append_assoc, parseKey_enc, parseBytes_enc]

theorem parseSignedBlock_enc (sb : SignedBlock) (rest : List Nat) :
    parseSignedBlock (encSignedBlock sb ++ rest) = some (sb, rest) := by
  simp [encSignedBlock, parseSignedBlock, List.append_assoc, parseBlock_enc, parseKey_enc,
    parseSig_enc]

theorem parseProof_enc (pf : TokenProof) (rest : List Nat) :
    parseProof (encProof pf ++ rest) = some (pf, rest) := by
  cases pf <;> simp [encProof, parseProof, parseBytes_enc, parseSig_enc]

theorem parseBiscuit_enc (t : Biscuit) (rest : List Nat) :
    parseBiscuit (encBiscuit t ++ rest) = some (t, rest) := by
  simp [encBiscuit, parseBiscuit, List.append_assoc, parseSignedBlock_enc, parseProof_enc,
    parseListOf_enc parseSignedBlock encSignedBlock t.blocks _ (fun x _ r => parseSignedBlock_enc x r)]

/-! ### Base64 inversion -/

theorem b64DecodeAux_replicate (n : Nat) (cs : List Char) (acc : Nat) :
    b64DecodeAux (List.replicate n 'a' ++ cs) (acc) = b64DecodeAux cs (acc + n) := by
  induction n generalizing acc with
  | zero => simp
  | succ n ih =>
    have h : acc + 1 + n = acc + (n + 1) := by omega
    simp [List.replicate_succ, b64DecodeAux, ih, h]

theorem b64DecodeAux_chars (bs : List Nat) :
    b64DecodeAux (b64Chars bs) 0 = some bs := by
  induction bs with
  | nil => simp [b64Chars, b64DecodeAux]
  | cons n ns ih =>
    simp [b64Chars, b64Chunk, List.append_assoc, b64DecodeAux_replicate, b64DecodeAux, ih]

theorem b64Decode_b64String (bs : List Nat) : b64Decode (b64String bs) = some bs := by
  simp [b64Decode, b64String, b64DecodeAux_chars]

/-! ### Round-trip helpers -/

theorem from_bytes_to_bytes (t : Biscuit) (root : PublicKey) (h : verifyToken root t = true) :
    Biscuit.from_bytes (Biscuit.to_bytes t) root = .ok t := by
  have hp := parseBiscuit_enc t []
  rw [List.append_nil] at hp
  simp [Biscuit.from_bytes, Biscuit.to_bytes, hp, h]

theorem from_base64_to_base64 (t : Biscuit) (root : PublicKey) (h : verifyToken root t = true) :
    Biscuit.from_base64 (Biscuit.to_base64 t) root = .ok t := by
  simp [Biscuit.from_base64, Biscuit.to_base64, b64Decode_b64String]
  exact from_bytes_to_bytes t root h

/-! ### Chain walk lemmas -/

theorem walkChain_append (bs : List SignedBlock) (sb : SignedBlock) (e : PublicKey) (p : Sig) :
    walkChain e p (bs ++ [sb]) =
      (match walkChain e p bs with
       | none => none
       | some (k, s) =>
         if sb.sig = ⟨k, blockPayload s sb.block sb.nextKey⟩ then some (sb.nextKey, sb.sig)
         else none) := by
  induction bs generalizing e p with
  | nil => simp [walkChain]
  | cons c cs ih =>
    rw [List.cons_append, walkChain, walkChain]
    split
    · exact ih _ _
    · rfl

theorem walkChain_last (bs : List SignedBlock) (e : PublicKey) (p : Sig) (k : PublicKey) (s : Sig)
    (h : walkChain e p bs = some (k, s)) :
    s = (match bs.getLast? with | some sb => sb.sig | none => p) := by
  induction bs generalizing e p with
  | nil =>
    rw [walkChain] at h
    simp at h
    simp [h.2]
  | cons c cs ih =>
    rw [walkChain] at h
    split at h
    · have hs := ih _ _ h
      cases cs with
      | nil => simpa using hs
      | cons d ds => simpa [List.getLast?_cons_cons] using hs
    · exact absurd h (by simp)

theorem encAll_encByte_length (l : List Nat) : (encAll encByte l).length = l.length := by
  induction l with
  | nil => simp [encAll]
  | cons x xs ih => simp [encAll, encByte, ih]

theorem length_lt_blockPayload (p : Sig) (b : Block) (nk : PublicKey) :
    p.data.length < (blockPayload p b nk).length := by
  simp [blockPayload, encSig, encBytes, encListOf, encAll_encByte_length]
  omega

theorem walkChain_chain (bs : List SignedBlock) (e : PublicKey) (p : Sig)
    (r : PublicKey × Sig) (h : walkChain e p bs = some r) :
    List.Chain (fun x y : Sig => x.data.length < y.data.length) p (bs.map (·.sig)) := by
  induction bs generalizing e p with
  | nil => simp
  | cons c cs ih =>
    rw [walkChain] at h
    split at h
    case isTrue heq =>
      refine List.Chain.cons ?_ (ih _ _ h)
      show p.data.length < c.sig.data.length
      rw [heq]
      exact length_lt_blockPayload p c.block c.nextKey
    case isFalse => exact absurd h (by simp)

theorem chainSigs_pairwise (root : PublicKey) (t : Biscuit) (h : verifyToken root t = true) :
    List.Pairwise (fun x y : Sig => x.data.length < y.data.length) (chainSigs t) := by
  rw [verifyToken, Bool.and_eq_true] at h
  obtain ⟨_, h2⟩ := h
  cases hw : walkChain t.authority.nextKey t.authority.sig t.blocks with
  | none => rw [hw] at h2; simp at h2
  | some r =>
    have hc := walkChain_chain _ _ _ _ hw
    haveI : IsTrans Sig (fun x y : Sig => x.data.length < y.data.length) :=
      ⟨fun _ _ _ hab hbc => Nat.lt_trans hab hbc⟩
    exact List.chain_iff_pairwise.mp hc

theorem decodeRevId_revocationId (s : Sig) : decodeRevId (revocationId s) = some s := by
  have hp := parseSig_enc s []
  rw [List.append_nil] at hp
  simp [decodeRevId, revocationId, b64Decode_b64String, hp]

theorem revocationId_injective : Function.Injective revocationId := by
  intro a b h
  have ha := decodeRevId_revocationId a
  rw [h, decodeRevId_revocationId] at ha
  exact (Option.some.inj ha).symm

/-! ### Policy resolution lemma -/

theorem evalPolicies_eq_find (facts : List Fact) (ps : List Policy) (i : Nat) :
    evalPolicies facts ps i =
      (match (List.enumFrom i ps).find? (fun ip => bodyMatches ip.2.body facts) with
       | some (j, p) =>
         match p.kind with
         | .allow => .ok j
         | .deny => .error (.deniedPolicy j)
       | none => .error .noPolicyMatched) := by
  induction ps generalizing i with
  | nil => simp [evalPolicies, List.enumFrom]
  | cons p ps ih =>
    rw [evalPolicies]
    by_cases hb : bodyMatches p.body facts
    · simp [List.enumFrom, hb]
    · simp [List.enumFrom, hb, ih (i + 1)]

/-! ### Claim theorems -/

/-- Claim C1: the spec asserts that a ThirdPartyBlock serializes to raw
bytes and base64 and round-trips; the source's ThirdPartyBlock::fromBytes
and ::fromBase64 instead call the ThirdPartyRequest deserializer and
return a ThirdPartyRequest, so deserializing a block's own serialization
does not yield the block: on a concrete block both round-trips fail with
a format error. -/
theorem thirdPartyBlock_roundtrip_broken :
    ThirdPartyBlock.from_bytes (ThirdPartyBlock.to_bytes exTPB) = .error .formatError ∧
    ThirdPartyBlock.from_base64 (ThirdPartyBlock.to_base64 exTPB) = .error .formatError :=
  ⟨by decide, by decide⟩

/-- Claim C2: when every assembled check passes, authorize() resolves the
policies strictly in declaration order: the first policy whose body has
at least one binding decides (allow succeeds with its index, deny fails
carrying its index), and with no matching policy a "no policy matched"
error is returned. -/
theorem authorize_policy_resolution (a : Authorizer)
    (h : a.failingChecks.isEmpty = true) :
    a.authorize = policyDecisionSpec a.satFacts a.policies := by
  rw [Authorizer.authorize, if_pos h, policyDecisionSpec, List.enum]
  exact evalPolicies_eq_find a.satFacts a.policies 0

/-- Witness for C2, at the claim's own example: policies
[deny if flag("x"), allow if true] with no flag fact authorize to allow
index 1. -/
theorem authorize_policy_resolution_witness :
    exC2Auth.failingChecks.isEmpty = true ∧ exC2Auth.authorize = .ok 1 :=
  ⟨by decide, by rw [authorize_policy_resolution exC2Auth (by decide)]; decide⟩

/-- Claim C3: a token whose chain verifies under the root public key
round-trips through toBytes/fromBytes and toBase64/fromBase64 to an equal
token (hence with the same blockCount, revocation identifiers and block
sources). -/
theorem biscuit_serialization_roundtrip (t : Biscuit) (root : PublicKey)
    (h : verifyToken root t = true) :
    Biscuit.from_bytes (Biscuit.to_bytes t) root = .ok t ∧
    Biscuit.from_base64 (Biscuit.to_base64 t) root = .ok t :=
  ⟨from_bytes_to_bytes t root h, from_base64_to_base64 t root h⟩

/-- Witness for C3 on a concrete two-block token. -/
theorem biscuit_serialization_roundtrip_witness :
    verifyToken exRootPub exToken2 = true ∧
    Biscuit.from_bytes (Biscuit.to_bytes exToken2) exRootPub = .ok exToken2 ∧
    Biscuit.from_base64 (Biscuit.to_base64 exToken2) exRootPub = .ok exToken2 :=
  ⟨by decide, (biscuit_serialization_roundtrip exToken2 exRootPub (by decide)).1,
    (biscuit_serialization_roundtrip exToken2 exRootPub (by decide)).2⟩

/-- Claim C4: appending a block to a verified unsealed token returns a
new token with exactly one more block that verifies under the same root
public key, while the receiver is unchanged; appending to a sealed token
fails. -/
theorem append_block_spec (t : Biscuit) (root : PublicKey) (b : Block) (eph : PrivateKey)
    (h : verifyToken root t = true) :
    (∀ sk, t.proof = .nextSecret sk →
      ∃ t', t.appendRun b eph = (.ok t', t) ∧
        t'.block_count = t.block_count + 1 ∧ verifyToken root t' = true) ∧
    (∀ sg, t.proof = .sealSig sg → t.appendRun b eph = (.error .appendOnSealed, t)) := by
  constructor
  · intro sk hsk
    refine ⟨{ authority := t.authority
              blocks := t.blocks ++
                [⟨b, derivePublic eph, sign sk (blockPayload (lastSig t) b (derivePublic eph))⟩]
              proof := .nextSecret eph }, ?_, ?_, ?_⟩
    · simp [Biscuit.appendRun, Biscuit.append, hsk]
    · simp [Biscuit.block_count]
      omega
    · rw [verifyToken, Bool.and_eq_true] at h
      obtain ⟨h1, h2⟩ := h
      cases hw : walkChain t.authority.nextKey t.authority.sig t.blocks with
      | none => rw [hw] at h2; simp at h2
      | some r =>
        obtain ⟨k, s⟩ := r
        rw [hw, hsk] at h2
        simp [proofOk] at h2
        have hlast : s = lastSig t := by
          rw [lastSig]
          exact walkChain_last t.blocks _ _ _ _ hw
        rw [verifyToken, Bool.and_eq_true]
        refine ⟨h1, ?_⟩
        rw [walkChain_append, hw]
        simp [sign, h2, hlast, proofOk]
  · intro sg hsg
    simp [Biscuit.appendRun, Biscuit.append, hsg]

/-- Witness for C4: appending to a concrete verified token, and to the
same token sealed. -/
theorem append_block_spec_witness :
    verifyToken exRootPub exToken1 = true ∧
    (∃ t', exToken1.appendRun emptyBlock exEph2 = (.ok t', exToken1) ∧
      t'.block_count = exToken1.block_count + 1 ∧ verifyToken exRootPub t' = true) ∧
    verifyToken exRootPub exSealed = true ∧
    exSealed.appendRun emptyBlock exEph2 = (.error .appendOnSealed, exSealed) :=
  ⟨by decide,
    (append_block_spec exToken1 exRootPub emptyBlock exEph2 (by decide)).1 exEph1 (by decide),
    by decide,
    (append_block_spec exSealed exRootPub emptyBlock exEph2 (by decide)).2
      (sign exEph1 (sealPayload (lastSig exToken1))) (by decide)⟩

/-- Claim C5: a verified token has exactly blockCount revocation
identifiers, in block order, pairwise distinct, and the identifier
sequence is stable across re-serialization (the round-trip returns the
same token, hence the same sequence; the function itself is
deterministic). -/
theorem revocation_identifiers_spec (t : Biscuit) (root : PublicKey)
    (h : verifyToken root t = true) :
    t.revocation_identifiers.length = t.block_count ∧
    t.revocation_identifiers.Nodup ∧
    Biscuit.from_bytes (Biscuit.to_bytes t) root = .ok t := by
  refine ⟨?_, ?_, from_bytes_to_bytes t root h⟩
  · simp [Biscuit.revocation_identifiers, chainSigs, Biscuit.block_count, Nat.add_comm]
  · have hp := chainSigs_pairwise root t h
    have hdup : (chainSigs t).Nodup :=
      hp.imp (fun hlt he => by rw [he] at hlt; exact Nat.lt_irrefl _ hlt)
    exact hdup.map revocationId_injective

/-- Witness for C5 on a concrete two-block token. -/
theorem revocation_identifiers_spec_witness :
    verifyToken exRootPub exToken2 = true ∧
    exToken2.revocation_identifiers.length = exToken2.block_count ∧
    exToken2.revocation_identifiers.Nodup ∧
    Biscuit.from_bytes (Biscuit.to_bytes exToken2) exRootPub = .ok exToken2 :=
  ⟨by decide, (revocation_identifiers_spec exToken2 exRootPub (by decide)).1,
    (revocation_identifiers_spec exToken2 exRootPub (by decide)).2.1,
    (revocation_identifiers_spec exToken2 exRootPub (by decide)).2.2⟩

/-- Claim C6: when addCode's batch parse fails, the authorizer is exactly
as it was: the call returns the parse error and the token and all four
statement lists are untouched. -/
theorem add_code_atomic (a : Authorizer) (src : List RawStatement)
    (h : parseSource src = none) :
    a.add_code src = (.error .formatError, a) := by
  simp [Authorizer.add_code, h]

/-- Witness for C6 on a batch with a malformed second statement and a
nonempty authorizer. -/
theorem add_code_atomic_witness :
    parseSource exBadSrc = none ∧
    exC6Auth.add_code exBadSrc = (.error .formatError, exC6Auth) :=
  ⟨by decide, add_code_atomic exC6Auth exBadSrc (by decide)⟩

/-- Claim C7: authorize() takes the authorizer by shared reference and
evaluates in a local value, so the call leaves the token and the local
fact, rule, check and policy lists identical, whether it succeeds or
fails. -/
theorem authorize_preserves_authorizer (a : Authorizer) :
    (a.authorizeRun).2.token = a.token ∧
    (a.authorizeRun).2.facts = a.facts ∧
    (a.authorizeRun).2.rules = a.rules ∧
    (a.authorizeRun).2.checks = a.checks ∧
    (a.authorizeRun).2.policies = a.policies ∧
    (a.authorizeRun).1 = a.authorize :=
  ⟨rfl, rfl, rfl, rfl, rfl, rfl⟩

/-- Claim C8: toBytes on public and private keys rejects every buffer
shorter than 32 bytes with an invalid-key-size error carrying the
buffer's length and leaves the buffer untouched; a 32-byte buffer is
filled with the key's 32 raw bytes. -/
theorem key_to_bytes_buffer_spec (pk : PublicKey) (sk : PrivateKey) (out : List Nat) :
    (out.length < 32 →
      pk.to_bytes out = (.error (.invalidKeySize out.length), out) ∧
      sk.to_bytes out = (.error (.invalidKeySize out.length), out)) ∧
    (out.length = 32 → pk.bytes.length = 32 → sk.bytes.length = 32 →
      pk.to_bytes out = (.ok (), pk.bytes) ∧ sk.to_bytes out = (.ok (), sk.bytes)) := by
  constructor
  · intro hlt
    have hne : out.length ≠ 32 := by omega
    simp [PublicKey.to_bytes, PrivateKey.to_bytes, hne]
  · intro he hpk hsk
    simp [PublicKey.to_bytes, PrivateKey.to_bytes, he, copyFromSlice, hpk, hsk]

/-- Witness for C8 on concrete 32-byte keys with a 5-byte and a 32-byte
buffer. -/
theorem key_to_bytes_buffer_spec_witness :
    (List.replicate 5 0).length < 32 ∧
    (exPub32.to_bytes (List.replicate 5 0) =
        (.error (.invalidKeySize (List.replicate 5 0).length), List.replicate 5 0) ∧
      exPriv32.to_bytes (List.replicate 5 0) =
        (.error (.invalidKeySize (List.replicate 5 0).length), List.replicate 5 0)) ∧
    (exPub32.to_bytes (List.replicate 32 0) = (.ok (), exPub32.bytes) ∧
      exPriv32.to_bytes (List.replicate 32 0) = (.ok (), exPriv32.bytes)) :=
  ⟨by decide,
    (key_to_bytes_buffer_spec exPub32 exPriv32 (List.replicate 5 0)).1 (by decide),
    (key_to_bytes_buffer_spec exPub32 exPriv32 (List.replicate 32 0)).2 (by decide) (by decide)
      (by decide)⟩

/-- Helper for C9: a successful strip of the marker characters means the
input literally starts with them. -/
theorem stripPfxChars_eq_append (p : List Char) :
    ∀ l r, stripPfxChars p l = some r → l = p ++ r := by
  induction p with
  | nil =>
    intro l r h
    rw [stripPfxChars] at h
    simp at h
    simp [h]
  | cons c cs ih =>
    intro l r h
    cases l with
    | nil => rw [stripPfxChars] at h; exact absurd h (by simp)
    | cons d ds =>
      rw [stripPfxChars] at h
      split at h
      case isTrue he => rw [List.cons_append, ← he, ih ds r h]
      case isFalse => exact absurd h (by simp)

/-- Claim C9: the textual public-key deserializer succeeds exactly on
"ed25519/" followed by a valid 32-byte lowercase hex encoding; a missing
marker yields a format error, a present marker with malformed hex yields
a parse error. -/
theorem public_key_textual_form_spec (s : String) :
    (stripPfxChars "ed25519/".data s.data = none → pkVisitString s = .error .formatError) ∧
    (∀ r, stripPfxChars "ed25519/".data s.data = some r →
      s.data = "ed25519/".data ++ r ∧
      (pkFromBytesHex (String.mk r) = none → pkVisitString s = .error .parseError) ∧
      (∀ k, pkFromBytesHex (String.mk r) = some k → pkVisitString s = .ok k)) ∧
    (∀ k, pkVisitString s = .ok k →
      ∃ r, stripPfxChars "ed25519/".data s.data = some r ∧
        pkFromBytesHex (String.mk r) = some k) := by
  refine ⟨?_, ?_, ?_⟩
  · intro h
    simp [pkVisitString, h]
  · intro r hr
    refine ⟨stripPfxChars_eq_append _ _ _ hr, ?_, ?_⟩
    · intro hh
      simp [pkVisitString, hr, hh]
    · intro k hk
      simp [pkVisitString, hr, hk]
  · intro k hk
    rw [pkVisitString] at hk
    cases hs : stripPfxChars "ed25519/".data s.data with
    | none => rw [hs] at hk; exact absurd hk (by simp)
    | some r =>
      rw [hs] at hk
      have hk2 : (match pkFromBytesHex (String.mk r) with
          | none => (Except.error KeyVisitError.parseError : Except KeyVisitError PublicKey)
          | some k3 => Except.ok k3) = Except.ok k := hk
      cases hh : pkFromBytesHex (String.mk r) with
      | none => rw [hh] at hk2; exact absurd hk2 (by simp)
      | some k2 =>
        rw [hh] at hk2
        exact ⟨r, rfl, by rw [hh, Except.ok.inj hk2]⟩

/-- Witness for C9 on a valid textual key, a string without the marker,
and a marked string with malformed hex. -/
theorem public_key_textual_form_spec_witness :
    pkVisitString (String.mk ['a', 'b', 'c']) = .error .formatError ∧
    pkVisitString exBadHexText = .error .parseError ∧
    pkVisitString exKeyText = .ok ⟨List.replicate 32 0⟩ :=
  ⟨(public_key_textual_form_spec (String.mk ['a', 'b', 'c'])).1 (by decide),
    ((public_key_textual_form_spec exBadHexText).2.1 ['z'] (by decide)).2.1 (by decide),
    ((public_key_textual_form_spec exKeyText).2.1 (List.replicate 64 '0') (by decide)).2.2
      ⟨List.replicate 32 0⟩ (by decide)⟩

/-- Claim C10: addFact, addRule, addCheck and addPolicy on the authorizer
always return Ok and append exactly the given value to the corresponding
local list, leaving the token and the three other lists unchanged. -/
theorem authorizer_add_statement_spec (a : Authorizer) (f : Fact) (r : Rule) (c : Check)
    (p : Policy) :
    a.add_fact f = (.ok (), { a with facts := a.facts ++ [f] }) ∧
    a.add_rule r = (.ok (), { a with rules := a.rules ++ [r] }) ∧
    a.add_check c = (.ok (), { a with checks := a.checks ++ [c] }) ∧
    a.add_policy p = (.ok (), { a with policies := a.policies ++ [p] }) :=
  ⟨rfl, rfl, rfl, rfl⟩

end BiscuitWasm
